import Mathlib

/-!
# go-redis-prometheus: the metrics hook of `hook.go`

A shallow embedding of `hook.go` (package `redisprom`) and the properties of its
`Hook`: what `ProcessHook`, `ProcessPipelineHook`, `BeforeProcess`, `AfterProcess`,
`BeforeProcessPipeline`, `AfterProcessPipeline`, `register`, `NewHook` and
`isActualErr` do to the four Prometheus vectors, to the call context and to the
error they hand back.

Conventions of the embedding

* A Go `error` is `Option GoError`; `nil` is `none`.
* A `redis.Cmder` is a record of what the hook reads from it: `Name()` and `Err()`.
  The next stage may mutate the command it is handed, so a stage returns the
  command (or batch) as it left it.
* The process state the hook reads and writes is a `World`: the wall clock that
  `time.Now()` reads and the contents of the four metric vectors the fields of
  the `Hook` point to.  Every method is a function from the `World` before the
  call to its results and the `World` after it.
* A label is the pair of values given to `WithLabelValues`:
  `(hook.options.InstanceName, cmd.Name())`.
* `time.Since(start).Seconds()` is kept as the exact difference of the two clock
  readings, in nanoseconds; the conversion to a float is not modelled.
-/

namespace Redisprom

/-! ## Errors -/

/-- Non-nil values of the Go interface `error`: a `proto.RedisError` (a string type,
compared by value) or any other error value. -/
inductive GoError where
  | redisError (msg : String)
  | other (msg : String)
  deriving DecidableEq, Repr

/-- The Go interface type `error`; `none` is `nil`. -/
abbrev Error := Option GoError

/-- The sentinel `redis.Nil`, which go-redis declares as `proto.RedisError("redis: nil")`. -/
def redisNil : GoError := GoError.redisError "redis: nil"

/-- Source: `func isActualErr(err error) bool { return err != nil && err != redis.Nil }`. -/
def isActualErr (err : Error) : Bool :=
  err != none && err != some redisNil

/-! ## Commands -/

/-- Modelled from the spec: the command descriptor contract of the execution engine,
`Name() → string` and `Err() → error-or-nil` (the interface `redis.Cmder`). -/
structure Cmder where
  Name : String
  Err : Error
  deriving DecidableEq, Repr

/-! ## Time -/

/-- A clock reading (`time.Time`), in nanoseconds. -/
abbrev Time := Int

/-- A `time.Duration`, in nanoseconds. -/
abbrev Duration := Int

/-! ## Contexts -/

/-- Keys of context values: the private key type `startKey struct{}` of this package,
or a key of some other type, owned by other code. -/
inductive Key where
  | startKey
  | foreign (name : String)
  deriving DecidableEq, Repr

/-- Values a context can hold (Go `any`): a `time.Time`, or a value of another type. -/
inductive Value where
  | time (t : Time)
  | other (repr : String)
  deriving DecidableEq, Repr

/-- Modelled from the spec: the per-call context object (`context.Context`), which
supports attaching and retrieving a value scoped to the call.  A context is the empty
context or a parent extended by one key/value pair. -/
inductive Context where
  | background
  | valueCtx (parent : Context) (key : Key) (val : Value)
  deriving DecidableEq, Repr

/-- Modelled from the spec: `context.WithValue(parent, key, val)` derives a context
that carries `val` under `key` and is the parent otherwise. -/
def WithValue (parent : Context) (key : Key) (val : Value) : Context :=
  Context.valueCtx parent key val

/-- Modelled from the spec: `ctx.Value(key)` is the value attached most recently under
`key`, or `nil` (`none`) when there is none. -/
def Context.Value : Context → Key → Option Value
  | Context.background, _ => none
  | Context.valueCtx parent k v, key => if k = key then some v else parent.Value key

/-- The type assertion `v.(time.Time)` in its comma-ok form: `some t` when the
interface value holds a `time.Time`, `none` (ok = false) for `nil` and for any other
dynamic type. -/
def assertTime : Option Value → Option Time
  | some (Value.time t) => some t
  | _ => none

/-- Modelled from the spec: `redis.NewCmd(ctx, name)` builds a command descriptor with
the given name that has not been executed, so its error is nil. -/
def NewCmd (_ctx : Context) (name : String) : Cmder :=
  { Name := name, Err := none }

/-! ## Metric vectors -/

/-- The two label values `(instance, command)` given to `WithLabelValues`
(`labelNames = []string{"instance", "command"}`). -/
abbrev Label := String × String

/-- Contents of a `*prometheus.HistogramVec`: for each label, the observations made
there, oldest first. -/
abbrev HistogramVec := Label → List Duration

/-- Contents of a `*prometheus.CounterVec`: for each label, the count. -/
abbrev CounterVec := Label → Nat

/-- Modelled from the spec: the histogram primitive `Observe(labels, value)`, as
`vec.WithLabelValues(...).Observe(d)`. -/
def HistogramVec.Observe (vec : HistogramVec) (l : Label) (d : Duration) : HistogramVec :=
  fun k => if k = l then vec k ++ [d] else vec k

/-- Modelled from the spec: the counter primitive `Increment(labels)`, as
`vec.WithLabelValues(...).Inc()`. -/
def CounterVec.Inc (vec : CounterVec) (l : Label) : CounterVec :=
  fun k => if k = l then vec k + 1 else vec k

/-- Contents of the four vectors the fields `singleCommands`, `pipelinedCommands`,
`singleErrors` and `pipelinedErrors` of a `Hook` point to. -/
structure Metrics where
  singleCommands : HistogramVec
  pipelinedCommands : CounterVec
  singleErrors : CounterVec
  pipelinedErrors : CounterVec

/-- Process state read and written by the hook: the wall clock and the metric vectors. -/
structure World where
  now : Time
  metrics : Metrics

/-- Modelled from the spec: `time.Since(start)` is the current clock reading minus
`start`. -/
def Since (start : Time) (w : World) : Duration :=
  w.now - start

/-! ## The hook -/

/-- Modelled from the spec: the configuration of a hook (the type `Options` is declared
outside `hook.go`): the instance name used as the first label value, the metric
namespace, and the bucket boundaries of the latency histogram. -/
structure Options where
  InstanceName : String
  Namespace : String
  DurationBuckets : List Rat
  deriving DecidableEq

/-- The two kinds of collector `NewHook` creates. -/
inductive CollectorKind where
  | histogramVec
  | counterVec
  deriving DecidableEq, Repr

/-- A `prometheus.Collector` as the registry sees it: the address of the object (its
identity as a Go pointer), its dynamic type, and its descriptor: fully-qualified name,
help text and label names.  `buckets` is the bucket list of a histogram. -/
structure Collector where
  addr : Nat
  kind : CollectorKind
  fqName : String
  help : String
  labelNames : List String
  buckets : List Rat
  deriving DecidableEq

/-- Source: the struct `Hook`; the four vector fields are pointers to collectors. -/
structure Hook where
  options : Options
  singleCommands : Collector
  pipelinedCommands : Collector
  singleErrors : Collector
  pipelinedErrors : Collector
  deriving DecidableEq

/-- Results of `BeforeProcess` and `BeforeProcessPipeline`: the derived context, the
error, and the world after the call. -/
structure BeforeResult where
  ctx : Context
  err : Error
  world : World

/-- Results of running a stage on a command (`α = Cmder`) or on a batch
(`α = List Cmder`): the error returned, the command or batch as the stage left it,
and the world after the call. -/
structure Outcome (α : Type) where
  err : Error
  cmd : α
  world : World

/-- The function type `redis.ProcessHook`: `func(ctx context.Context, cmd Cmder) error`. -/
abbrev ProcessHookFunc := Context → Cmder → World → Outcome Cmder

/-- The function type `redis.ProcessPipelineHook`:
`func(ctx context.Context, cmds []Cmder) error`. -/
abbrev ProcessPipelineHookFunc := Context → List Cmder → World → Outcome (List Cmder)

/-- Histogram update of `AfterProcess`:
`hook.singleCommands.WithLabelValues(hook.options.InstanceName, cmd.Name()).Observe(duration)`. -/
def World.observeSingle (w : World) (l : Label) (d : Duration) : World :=
  { w with metrics := { w.metrics with singleCommands := w.metrics.singleCommands.Observe l d } }

/-- Counter update `hook.singleErrors.WithLabelValues(...).Inc()`. -/
def World.incSingleErrors (w : World) (l : Label) : World :=
  { w with metrics := { w.metrics with singleErrors := w.metrics.singleErrors.Inc l } }

/-- Counter update `hook.pipelinedCommands.WithLabelValues(...).Inc()`. -/
def World.incPipelinedCommands (w : World) (l : Label) : World :=
  { w with metrics := { w.metrics with pipelinedCommands := w.metrics.pipelinedCommands.Inc l } }

/-- Counter update `hook.pipelinedErrors.WithLabelValues(...).Inc()`. -/
def World.incPipelinedErrors (w : World) (l : Label) : World :=
  { w with metrics := { w.metrics with pipelinedErrors := w.metrics.pipelinedErrors.Inc l } }

namespace Hook

/-- Source: `BeforeProcess`:
`return context.WithValue(ctx, startKey{}, time.Now()), nil`. -/
def BeforeProcess (_hook : Hook) (ctx : Context) (_cmd : Cmder) (w : World) : BeforeResult :=
  { ctx := WithValue ctx Key.startKey (Value.time w.now), err := none, world := w }

/-- Source: `AfterProcess`: observe the elapsed time when the context holds a
`time.Time` under `startKey{}`, count the command's error when it is an actual error,
return nil. -/
def AfterProcess (hook : Hook) (ctx : Context) (cmd : Cmder) (w : World) : Error × World :=
  let w1 :=
    match assertTime (ctx.Value Key.startKey) with
    | some start => w.observeSingle (hook.options.InstanceName, cmd.Name) (Since start w)
    | none => w
  let w2 :=
    if isActualErr cmd.Err then w1.incSingleErrors (hook.options.InstanceName, cmd.Name)
    else w1
  (none, w2)

/-- Source: `BeforeProcessPipeline`:
`return context.WithValue(ctx, startKey{}, time.Now()), nil`. -/
def BeforeProcessPipeline (_hook : Hook) (ctx : Context) (_cmds : List Cmder) (w : World) :
    BeforeResult :=
  { ctx := WithValue ctx Key.startKey (Value.time w.now), err := none, world := w }

/-- Body of the loop `for _, cmd := range cmds` of `AfterProcessPipeline`. -/
def countPipelined (hook : Hook) (w : World) (cmd : Cmder) : World :=
  let w1 := w.incPipelinedCommands (hook.options.InstanceName, cmd.Name)
  if isActualErr cmd.Err then w1.incPipelinedErrors (hook.options.InstanceName, cmd.Name)
  else w1

/-- Source: `AfterProcessPipeline`: run `AfterProcess` on the synthetic command
`redis.NewCmd(ctx, "pipeline")`, return its error if it has one, then count every
command of the batch. -/
def AfterProcessPipeline (hook : Hook) (ctx : Context) (cmds : List Cmder) (w : World) :
    Error × World :=
  match hook.AfterProcess ctx (NewCmd ctx "pipeline") w with
  | (some err, w1) => (some err, w1)
  | (none, w1) => (none, cmds.foldl hook.countPipelined w1)

/-- Source: `DialHook`: `return next`. -/
def DialHook {α : Type} (_hook : Hook) (next : α) : α := next

/-- Source: `ProcessHook`: the stage that runs `BeforeProcess`, then `next` on the
derived context, then `AfterProcess` on that same context, returning early on the
first non-nil error. -/
def ProcessHook (hook : Hook) (next : ProcessHookFunc) : ProcessHookFunc :=
  fun ctx cmd w =>
    let b := hook.BeforeProcess ctx cmd w
    match b.err with
    | some err => { err := some err, cmd := cmd, world := b.world }
    | none =>
      let r := next b.ctx cmd b.world
      match r.err with
      | some err => { err := some err, cmd := r.cmd, world := r.world }
      | none =>
        let a := hook.AfterProcess b.ctx r.cmd r.world
        { err := a.1, cmd := r.cmd, world := a.2 }

/-- Source: `ProcessPipelineHook`: as `ProcessHook`, for a batch. -/
def ProcessPipelineHook (hook : Hook) (next : ProcessPipelineHookFunc) :
    ProcessPipelineHookFunc :=
  fun ctx cmds w =>
    let b := hook.BeforeProcessPipeline ctx cmds w
    match b.err with
    | some err => { err := some err, cmd := cmds, world := b.world }
    | none =>
      let r := next b.ctx cmds b.world
      match r.err with
      | some err => { err := some err, cmd := r.cmd, world := r.world }
      | none =>
        let a := hook.AfterProcessPipeline b.ctx r.cmd r.world
        { err := a.1, cmd := r.cmd, world := a.2 }

end Hook

/-! ## Registration -/

/-- Source: `labelNames = []string{"instance", "command"}`. -/
def labelNames : List String := ["instance", "command"]

/-- Non-nil errors of the registration primitive: `prometheus.AlreadyRegisteredError`
with its two fields, or any other error. -/
inductive RegisterError where
  | alreadyRegistered (ExistingCollector NewCollector : Collector)
  | other (msg : String)
  deriving DecidableEq

/-- Values a panic of `NewHook` carries: the error `register` panics with, or the
run-time error of a failed type assertion on the collector `register` returned. -/
inductive Panic where
  | registerError (err : RegisterError)
  | typeAssertion (got : Collector)
  deriving DecidableEq

/-- Modelled from the spec: the registration primitive
`Register(collector) → error | AlreadyRegisteredError{existing}` of a registry whose
state has type `ρ`; `none` is the nil error. -/
abbrev Registerer (ρ : Type) := Collector → ρ → Option RegisterError × ρ

/-- Source: `register`: the collector itself when `Register` returns nil, the existing
collector when it returns an `AlreadyRegisteredError`, a panic with the error
otherwise.  `Register` stands for `prometheus.DefaultRegisterer.Register`. -/
def register {ρ : Type} (Register : Registerer ρ) (collector : Collector) (reg : ρ) :
    Except Panic (Collector × ρ) :=
  match Register collector reg with
  | (none, reg1) => Except.ok (collector, reg1)
  | (some (RegisterError.alreadyRegistered existing _), reg1) => Except.ok (existing, reg1)
  | (some err, _) => Except.error (Panic.registerError err)

/-- The type assertions `.(*prometheus.HistogramVec)` and `.(*prometheus.CounterVec)` in
their one-result form, which panic on a collector of another type. -/
def assertKind (kind : CollectorKind) (c : Collector) : Except Panic Collector :=
  if c.kind = kind then Except.ok c else Except.error (Panic.typeAssertion c)

/-- Modelled from the spec: the metric identity "namespace + name", as
`prometheus.BuildFQName(namespace, "", name)` joins them. -/
def BuildFQName (ns name : String) : String :=
  if name = "" then "" else if ns = "" then name else ns ++ "_" ++ name

/-- State of the process that `NewHook` reads and writes: the next free address, from
which new collectors are allocated, and the state of the default registry. -/
structure Process (ρ : Type) where
  nextAddr : Nat
  registry : ρ

/-- Modelled from the spec: `prometheus.NewHistogramVec(HistogramOpts{Namespace, Name,
Help, Buckets}, labelNames)` allocates a new histogram vector. -/
def NewHistogramVec {ρ : Type} (ns name help : String) (buckets : List Rat)
    (labels : List String) (p : Process ρ) : Collector × Process ρ :=
  ({ addr := p.nextAddr, kind := CollectorKind.histogramVec, fqName := BuildFQName ns name,
     help := help, labelNames := labels, buckets := buckets },
   { p with nextAddr := p.nextAddr + 1 })

/-- Modelled from the spec: `prometheus.NewCounterVec(CounterOpts{Namespace, Name, Help},
labelNames)` allocates a new counter vector. -/
def NewCounterVec {ρ : Type} (ns name help : String) (labels : List String) (p : Process ρ) :
    Collector × Process ρ :=
  ({ addr := p.nextAddr, kind := CollectorKind.counterVec, fqName := BuildFQName ns name,
     help := help, labelNames := labels, buckets := [] },
   { p with nextAddr := p.nextAddr + 1 })

/-- Source: `NewHook`, given the options after `DefaultOptions()` and `Merge(opts...)`:
create and register the four vectors in the order of the source, keep what `register`
returns after the type assertion. -/
def NewHook {ρ : Type} (Register : Registerer ρ) (options : Options) (p : Process ρ) :
    Except Panic (Hook × Process ρ) := do
  let (c1, p1) := NewHistogramVec options.Namespace "redis_single_commands"
    "Histogram of single Redis commands" options.DurationBuckets labelNames p
  let (r1, reg1) ← register Register c1 p1.registry
  let singleCommands ← assertKind CollectorKind.histogramVec r1
  let (c2, p2) := NewCounterVec options.Namespace "redis_pipelined_commands"
    "Number of pipelined Redis commands" labelNames { p1 with registry := reg1 }
  let (r2, reg2) ← register Register c2 p2.registry
  let pipelinedCommands ← assertKind CollectorKind.counterVec r2
  let (c3, p3) := NewCounterVec options.Namespace "redis_single_errors"
    "Number of single Redis commands that have failed" labelNames { p2 with registry := reg2 }
  let (r3, reg3) ← register Register c3 p3.registry
  let singleErrors ← assertKind CollectorKind.counterVec r3
  let (c4, p4) := NewCounterVec options.Namespace "redis_pipelined_errors"
    "Number of pipelined Redis commands that have failed" labelNames
    { p3 with registry := reg3 }
  let (r4, reg4) ← register Register c4 p4.registry
  let pipelinedErrors ← assertKind CollectorKind.counterVec r4
  pure
    ({ options := options
       singleCommands := singleCommands
       pipelinedCommands := pipelinedCommands
       singleErrors := singleErrors
       pipelinedErrors := pipelinedErrors },
     { p4 with registry := reg4 })

/-- Modelled from the spec: the process-wide metrics registry.  Its state is the list of
registered collectors; a collector's identity is its fully-qualified name.  `Register`
accepts a collector whose name is not registered, answers `AlreadyRegisteredError` with
the registered collector when the name is registered with the same help text and label
names, and fails with another error when the name is registered with different ones. -/
def DefaultRegisterer : Registerer (List Collector) :=
  fun c reg =>
    match reg.find? (fun e => e.fqName == c.fqName) with
    | none => (none, reg ++ [c])
    | some existing =>
      if existing.help = c.help ∧ existing.labelNames = c.labelNames then
        (some (RegisterError.alreadyRegistered existing c), reg)
      else
        (some (RegisterError.other
          ("a previously registered descriptor with the same fully-qualified name as " ++
            c.fqName ++ " has different label names or a different help string")), reg)

/-- A registry that refuses every collector with the same error. -/
def refusingRegisterer : Registerer Unit :=
  fun _ reg => (some (RegisterError.other "registry closed"), reg)

/-! ## Concrete data used to evaluate the definitions -/

/-- A world in which every vector is empty and the clock reads `t`. -/
def World.empty (t : Time) : World :=
  { now := t
    metrics :=
      { singleCommands := fun _ => []
        pipelinedCommands := fun _ => 0
        singleErrors := fun _ => 0
        pipelinedErrors := fun _ => 0 } }

/-- A collector of the given address, kind and name, with the label names of `hook.go`. -/
def sampleCollector (addr : Nat) (kind : CollectorKind) (name help : String) : Collector :=
  { addr := addr, kind := kind, fqName := name, help := help,
    labelNames := ["instance", "command"], buckets := [] }

/-- A hook for the instance `"cache"` with an empty namespace. -/
def sampleHook : Hook :=
  { options := { InstanceName := "cache", Namespace := "", DurationBuckets := [] }
    singleCommands :=
      sampleCollector 0 CollectorKind.histogramVec "redis_single_commands"
        "Histogram of single Redis commands"
    pipelinedCommands :=
      sampleCollector 1 CollectorKind.counterVec "redis_pipelined_commands"
        "Number of pipelined Redis commands"
    singleErrors :=
      sampleCollector 2 CollectorKind.counterVec "redis_single_errors"
        "Number of single Redis commands that have failed"
    pipelinedErrors :=
      sampleCollector 3 CollectorKind.counterVec "redis_pipelined_errors"
        "Number of pipelined Redis commands that have failed" }

/-- A connectivity error, as go-redis reports a refused connection. -/
def connRefused : GoError := GoError.other "dial tcp 127.0.0.1:6379: connect: connection refused"

/-- A next stage that takes seven nanoseconds and succeeds. -/
def okNext : ProcessHookFunc :=
  fun _ cmd w => { err := none, cmd := cmd, world := { w with now := w.now + 7 } }

/-- A next stage that takes seven nanoseconds, records a connectivity error on the
command and returns nil all the same (a stage that swallows the error). -/
def quietFailNext : ProcessHookFunc :=
  fun _ cmd w =>
    { err := none, cmd := { cmd with Err := some connRefused },
      world := { w with now := w.now + 7 } }

/-- A next stage that takes seven nanoseconds and fails with a connectivity error: it
records the error on the command and returns it, as the go-redis client does. -/
def failNext : ProcessHookFunc :=
  fun _ cmd w =>
    { err := some connRefused, cmd := { cmd with Err := some connRefused },
      world := { w with now := w.now + 7 } }

/-- A next stage for batches that takes seven nanoseconds and succeeds. -/
def okPipelineNext : ProcessPipelineHookFunc :=
  fun _ cmds w => { err := none, cmd := cmds, world := { w with now := w.now + 7 } }

/-- A next stage for batches that fails with a connectivity error on every command. -/
def failPipelineNext : ProcessPipelineHookFunc :=
  fun _ cmds w =>
    { err := some connRefused, cmd := cmds.map fun c => { c with Err := some connRefused },
      world := { w with now := w.now + 7 } }

/-- The command `SET`, not yet executed. -/
def cmdSet : Cmder := { Name := "SET", Err := none }

/-- The command `GET`, not yet executed. -/
def cmdGet : Cmder := { Name := "GET", Err := none }

/-- A command whose name is the string `"pipeline"`, executed without error: a real
command of a batch that has the name of the pseudo-command. -/
def cmdPipeline : Cmder := { Name := "pipeline", Err := none }

/-- The batch `[GET, SET, GET]` in which only `SET` ended with an actual error. -/
def sampleBatch : List Cmder :=
  [cmdGet, { Name := "SET", Err := some connRefused }, cmdGet]

/-- Options of a first hook: instance `"cache"`, namespace `"app"`. -/
def firstOptions : Options :=
  { InstanceName := "cache", Namespace := "app", DurationBuckets := [1, 5] }

/-- Options of a second hook with the same namespace, another instance name and other
buckets. -/
def secondOptions : Options :=
  { InstanceName := "sessions", Namespace := "app", DurationBuckets := [] }

/-- The hook `NewHook` builds from `firstOptions` in a process that has allocated and
registered nothing. -/
def firstHook : Hook :=
  { options := firstOptions
    singleCommands :=
      { addr := 0, kind := CollectorKind.histogramVec, fqName := "app_redis_single_commands",
        help := "Histogram of single Redis commands", labelNames := ["instance", "command"],
        buckets := [1, 5] }
    pipelinedCommands :=
      sampleCollector 1 CollectorKind.counterVec "app_redis_pipelined_commands"
        "Number of pipelined Redis commands"
    singleErrors :=
      sampleCollector 2 CollectorKind.counterVec "app_redis_single_errors"
        "Number of single Redis commands that have failed"
    pipelinedErrors :=
      sampleCollector 3 CollectorKind.counterVec "app_redis_pipelined_errors"
        "Number of pipelined Redis commands that have failed" }

/-- The process after that first `NewHook`: four addresses used, four collectors
registered. -/
def firstProcess : Process (List Collector) :=
  { nextAddr := 4
    registry := [firstHook.singleCommands, firstHook.pipelinedCommands, firstHook.singleErrors,
      firstHook.pipelinedErrors] }

/-- A new histogram vector with the name of the first hook's histogram, as a second
`NewHook` creates it. -/
def secondHistogram : Collector :=
  { addr := 4, kind := CollectorKind.histogramVec, fqName := "app_redis_single_commands",
    help := "Histogram of single Redis commands", labelNames := ["instance", "command"],
    buckets := [] }

/-! ## Basic facts about the embedding -/

theorem isActualErr_iff (err : Error) :
    isActualErr err = true ↔ err ≠ none ∧ err ≠ some redisNil := by
  simp [isActualErr]

theorem isActualErr_eq_false_iff (err : Error) :
    isActualErr err = false ↔ err = none ∨ err = some redisNil := by
  cases h : isActualErr err
  · have h2 : ¬ (err ≠ none ∧ err ≠ some redisNil) := by
      rw [← isActualErr_iff, h]; simp
    constructor
    · intro _
      by_cases h3 : err = none
      · exact Or.inl h3
      · right
        by_contra h4
        exact h2 ⟨h3, h4⟩
    · intro _; rfl
  · have h2 := (isActualErr_iff err).1 h
    constructor
    · intro h3; cases h3
    · rintro (h3 | h3)
      · exact absurd h3 h2.1
      · exact absurd h3 h2.2

theorem value_WithValue_self (ctx : Context) (key : Key) (val : Value) :
    (WithValue ctx key val).Value key = some val := by
  simp [WithValue, Context.Value]

theorem value_WithValue_of_ne (ctx : Context) (key k : Key) (val : Value)
    (h : k ≠ key) : (WithValue ctx key val).Value k = ctx.Value k := by
  simp [WithValue, Context.Value, Ne.symm h]

namespace Hook

theorem AfterProcess_fst (hook : Hook) (ctx : Context) (cmd : Cmder) (w : World) :
    (hook.AfterProcess ctx cmd w).1 = none := rfl

theorem AfterProcess_now (hook : Hook) (ctx : Context) (cmd : Cmder) (w : World) :
    (hook.AfterProcess ctx cmd w).2.now = w.now := by
  unfold AfterProcess
  cases assertTime (ctx.Value Key.startKey) <;> cases isActualErr cmd.Err <;> rfl

theorem AfterProcess_pipelinedCommands (hook : Hook) (ctx : Context) (cmd : Cmder) (w : World) :
    (hook.AfterProcess ctx cmd w).2.metrics.pipelinedCommands = w.metrics.pipelinedCommands := by
  unfold AfterProcess
  cases assertTime (ctx.Value Key.startKey) <;> cases isActualErr cmd.Err <;> rfl

theorem AfterProcess_pipelinedErrors (hook : Hook) (ctx : Context) (cmd : Cmder) (w : World) :
    (hook.AfterProcess ctx cmd w).2.metrics.pipelinedErrors = w.metrics.pipelinedErrors := by
  unfold AfterProcess
  cases assertTime (ctx.Value Key.startKey) <;> cases isActualErr cmd.Err <;> rfl

theorem AfterProcess_singleErrors (hook : Hook) (ctx : Context) (cmd : Cmder) (w : World) :
    (hook.AfterProcess ctx cmd w).2.metrics.singleErrors =
      if isActualErr cmd.Err = true then
        w.metrics.singleErrors.Inc (hook.options.InstanceName, cmd.Name)
      else w.metrics.singleErrors := by
  unfold AfterProcess
  cases assertTime (ctx.Value Key.startKey) <;> cases isActualErr cmd.Err <;> rfl

theorem AfterProcess_singleCommands (hook : Hook) (ctx : Context) (cmd : Cmder) (w : World) :
    (hook.AfterProcess ctx cmd w).2.metrics.singleCommands =
      match assertTime (ctx.Value Key.startKey) with
      | some start =>
        w.metrics.singleCommands.Observe (hook.options.InstanceName, cmd.Name) (w.now - start)
      | none => w.metrics.singleCommands := by
  unfold AfterProcess
  cases assertTime (ctx.Value Key.startKey) <;> cases isActualErr cmd.Err <;> rfl

/-! ## The loop of `AfterProcessPipeline` -/

theorem foldl_countPipelined_now (hook : Hook) (cmds : List Cmder) (w : World) :
    (cmds.foldl hook.countPipelined w).now = w.now := by
  induction cmds generalizing w with
  | nil => rfl
  | cons c cs ih =>
    rw [List.foldl_cons, ih]
    unfold countPipelined
    cases isActualErr c.Err <;> rfl

theorem foldl_countPipelined_singleCommands (hook : Hook) (cmds : List Cmder) (w : World) :
    (cmds.foldl hook.countPipelined w).metrics.singleCommands = w.metrics.singleCommands := by
  induction cmds generalizing w with
  | nil => rfl
  | cons c cs ih =>
    rw [List.foldl_cons, ih]
    unfold countPipelined
    cases isActualErr c.Err <;> rfl

theorem foldl_countPipelined_singleErrors (hook : Hook) (cmds : List Cmder) (w : World) :
    (cmds.foldl hook.countPipelined w).metrics.singleErrors = w.metrics.singleErrors := by
  induction cmds generalizing w with
  | nil => rfl
  | cons c cs ih =>
    rw [List.foldl_cons, ih]
    unfold countPipelined
    cases isActualErr c.Err <;> rfl

theorem foldl_countPipelined_pipelinedCommands (hook : Hook) (cmds : List Cmder) (w : World)
    (l : Label) :
    (cmds.foldl hook.countPipelined w).metrics.pipelinedCommands l =
      w.metrics.pipelinedCommands l +
        cmds.countP (fun c => decide ((hook.options.InstanceName, c.Name) = l)) := by
  induction cmds generalizing w with
  | nil => simp
  | cons c cs ih =>
    rw [List.foldl_cons, ih, List.countP_cons]
    have h : (hook.countPipelined w c).metrics.pipelinedCommands l =
        w.metrics.pipelinedCommands l +
          (if decide ((hook.options.InstanceName, c.Name) = l) = true then 1 else 0) := by
      unfold countPipelined
      cases isActualErr c.Err <;>
        by_cases hl : l = (hook.options.InstanceName, c.Name) <;>
        simp [World.incPipelinedCommands, World.incPipelinedErrors, CounterVec.Inc, hl, eq_comm]
    rw [h]
    omega

theorem foldl_countPipelined_pipelinedErrors (hook : Hook) (cmds : List Cmder) (w : World)
    (l : Label) :
    (cmds.foldl hook.countPipelined w).metrics.pipelinedErrors l =
      w.metrics.pipelinedErrors l +
        cmds.countP
          (fun c => decide ((hook.options.InstanceName, c.Name) = l) && isActualErr c.Err) := by
  induction cmds generalizing w with
  | nil => simp
  | cons c cs ih =>
    rw [List.foldl_cons, ih, List.countP_cons]
    have h : (hook.countPipelined w c).metrics.pipelinedErrors l =
        w.metrics.pipelinedErrors l +
          (if (decide ((hook.options.InstanceName, c.Name) = l) && isActualErr c.Err) = true
            then 1 else 0) := by
      unfold countPipelined
      cases isActualErr c.Err <;>
        by_cases hl : l = (hook.options.InstanceName, c.Name) <;>
        simp [World.incPipelinedCommands, World.incPipelinedErrors, CounterVec.Inc, hl, eq_comm]
    rw [h]
    omega

theorem AfterProcessPipeline_eq (hook : Hook) (ctx : Context) (cmds : List Cmder) (w : World) :
    hook.AfterProcessPipeline ctx cmds w =
      (none, cmds.foldl hook.countPipelined (hook.AfterProcess ctx (NewCmd ctx "pipeline") w).2) :=
  rfl

/-! ## The stages built by `ProcessHook` and `ProcessPipelineHook` -/

theorem ProcessHook_of_ok (hook : Hook) (next : ProcessHookFunc) (ctx : Context) (cmd : Cmder)
    (w : World) (h : (next (WithValue ctx Key.startKey (Value.time w.now)) cmd w).err = none) :
    hook.ProcessHook next ctx cmd w =
      { err := none
        cmd := (next (WithValue ctx Key.startKey (Value.time w.now)) cmd w).cmd
        world := (hook.AfterProcess (WithValue ctx Key.startKey (Value.time w.now))
          (next (WithValue ctx Key.startKey (Value.time w.now)) cmd w).cmd
          (next (WithValue ctx Key.startKey (Value.time w.now)) cmd w).world).2 } := by
  simp only [ProcessHook, BeforeProcess, h, AfterProcess_fst]

theorem ProcessHook_of_err (hook : Hook) (next : ProcessHookFunc) (ctx : Context) (cmd : Cmder)
    (w : World) (e : GoError)
    (h : (next (WithValue ctx Key.startKey (Value.time w.now)) cmd w).err = some e) :
    hook.ProcessHook next ctx cmd w =
      { err := some e
        cmd := (next (WithValue ctx Key.startKey (Value.time w.now)) cmd w).cmd
        world := (next (WithValue ctx Key.startKey (Value.time w.now)) cmd w).world } := by
  simp only [ProcessHook, BeforeProcess, h]

theorem ProcessPipelineHook_of_ok (hook : Hook) (next : ProcessPipelineHookFunc) (ctx : Context)
    (cmds : List Cmder) (w : World)
    (h : (next (WithValue ctx Key.startKey (Value.time w.now)) cmds w).err = none) :
    hook.ProcessPipelineHook next ctx cmds w =
      { err := none
        cmd := (next (WithValue ctx Key.startKey (Value.time w.now)) cmds w).cmd
        world := (hook.AfterProcessPipeline (WithValue ctx Key.startKey (Value.time w.now))
          (next (WithValue ctx Key.startKey (Value.time w.now)) cmds w).cmd
          (next (WithValue ctx Key.startKey (Value.time w.now)) cmds w).world).2 } := by
  simp only [ProcessPipelineHook, BeforeProcessPipeline, h, AfterProcessPipeline_eq]

theorem ProcessPipelineHook_of_err (hook : Hook) (next : ProcessPipelineHookFunc) (ctx : Context)
    (cmds : List Cmder) (w : World) (e : GoError)
    (h : (next (WithValue ctx Key.startKey (Value.time w.now)) cmds w).err = some e) :
    hook.ProcessPipelineHook next ctx cmds w =
      { err := some e
        cmd := (next (WithValue ctx Key.startKey (Value.time w.now)) cmds w).cmd
        world := (next (WithValue ctx Key.startKey (Value.time w.now)) cmds w).world } := by
  simp only [ProcessPipelineHook, BeforeProcessPipeline, h]

theorem assertTime_BeforeProcess (hook : Hook) (ctx : Context) (cmd : Cmder) (w : World) :
    assertTime ((hook.BeforeProcess ctx cmd w).ctx.Value Key.startKey) = some w.now := by
  simp [BeforeProcess, value_WithValue_self, assertTime]

theorem assertTime_BeforeProcessPipeline (hook : Hook) (ctx : Context) (cmds : List Cmder)
    (w : World) :
    assertTime ((hook.BeforeProcessPipeline ctx cmds w).ctx.Value Key.startKey) = some w.now := by
  simp [BeforeProcessPipeline, value_WithValue_self, assertTime]

/-! ## Claims about `AfterProcess` -/

/-- C2: for every context and command, `AfterProcess` increments the single-command
error counter at (instance name, `cmd.Name()`) by exactly one if and only if `cmd.Err()`
is non-nil and is not `redis.Nil`, which is exactly when `isActualErr(cmd.Err())` is
true; it changes the single-command error counter at no other label, and when
`cmd.Err()` is nil or `redis.Nil` no error counter is changed at any label. -/
theorem AfterProcess_counts_actual_errors (hook : Hook) (ctx : Context) (cmd : Cmder)
    (w : World) :
    (isActualErr cmd.Err = true ↔ cmd.Err ≠ none ∧ cmd.Err ≠ some redisNil) ∧
    ((hook.AfterProcess ctx cmd w).2.metrics.singleErrors (hook.options.InstanceName, cmd.Name) =
        w.metrics.singleErrors (hook.options.InstanceName, cmd.Name) + 1 ↔
      cmd.Err ≠ none ∧ cmd.Err ≠ some redisNil) ∧
    (∀ l : Label, l ≠ (hook.options.InstanceName, cmd.Name) →
      (hook.AfterProcess ctx cmd w).2.metrics.singleErrors l = w.metrics.singleErrors l) ∧
    (cmd.Err = none ∨ cmd.Err = some redisNil →
      (hook.AfterProcess ctx cmd w).2.metrics.singleErrors = w.metrics.singleErrors) ∧
    (hook.AfterProcess ctx cmd w).2.metrics.pipelinedErrors = w.metrics.pipelinedErrors := by
  refine ⟨isActualErr_iff cmd.Err, ?_, ?_, ?_, AfterProcess_pipelinedErrors hook ctx cmd w⟩
  · rw [AfterProcess_singleErrors, ← isActualErr_iff]
    cases h : isActualErr cmd.Err <;> simp [CounterVec.Inc]
  · intro l hl
    rw [AfterProcess_singleErrors]
    cases h : isActualErr cmd.Err <;> simp [CounterVec.Inc, hl]
  · intro h
    rw [AfterProcess_singleErrors, (isActualErr_eq_false_iff cmd.Err).2 h]
    simp

/-- Evaluation of C2 on `SET` ending with a refused connection: the error is an actual
error and the counter at `("cache", "SET")` goes from 0 to 1. -/
theorem AfterProcess_counts_actual_errors_witness :
    ((some connRefused : Error) ≠ none ∧ (some connRefused : Error) ≠ some redisNil) ∧
    (sampleHook.AfterProcess Context.background { Name := "SET", Err := some connRefused }
        (World.empty 0)).2.metrics.singleErrors ("cache", "SET") = 0 + 1 :=
  ⟨by simp [connRefused, redisNil],
   (AfterProcess_counts_actual_errors sampleHook Context.background
      { Name := "SET", Err := some connRefused } (World.empty 0)).2.1.2
      (by simp [connRefused, redisNil])⟩

/-- C7: `AfterProcess` returns nil for every context and every command, whatever
`cmd.Err()` is and whether or not the context carries a start timestamp;
`AfterProcessPipeline` returns nil for every context and every batch; hence the stages
returned by `ProcessHook(next)` and `ProcessPipelineHook(next)` return nil whenever
`next` returns nil. -/
theorem after_hooks_return_nil (hook : Hook) :
    (∀ (ctx : Context) (cmd : Cmder) (w : World), (hook.AfterProcess ctx cmd w).1 = none) ∧
    (∀ (ctx : Context) (cmds : List Cmder) (w : World),
      (hook.AfterProcessPipeline ctx cmds w).1 = none) ∧
    (∀ (next : ProcessHookFunc) (ctx : Context) (cmd : Cmder) (w : World),
      (next (hook.BeforeProcess ctx cmd w).ctx cmd w).err = none →
        (hook.ProcessHook next ctx cmd w).err = none) ∧
    (∀ (next : ProcessPipelineHookFunc) (ctx : Context) (cmds : List Cmder) (w : World),
      (next (hook.BeforeProcessPipeline ctx cmds w).ctx cmds w).err = none →
        (hook.ProcessPipelineHook next ctx cmds w).err = none) := by
  refine ⟨fun _ _ _ => rfl, fun _ _ _ => rfl, ?_, ?_⟩
  · intro next ctx cmd w h
    rw [ProcessHook_of_ok hook next ctx cmd w h]
  · intro next ctx cmds w h
    rw [ProcessPipelineHook_of_ok hook next ctx cmds w h]

/-- Evaluation of C7: even when the next stage leaves an actual error on the command
but returns nil, the stage returns nil; so does the pipeline stage. -/
theorem after_hooks_return_nil_witness :
    (quietFailNext (sampleHook.BeforeProcess Context.background cmdSet (World.empty 0)).ctx
        cmdSet (World.empty 0)).err = none ∧
    (sampleHook.ProcessHook quietFailNext Context.background cmdSet (World.empty 0)).err = none ∧
    (sampleHook.ProcessPipelineHook okPipelineNext Context.background sampleBatch
        (World.empty 0)).err = none :=
  ⟨rfl,
   (after_hooks_return_nil sampleHook).2.2.1 quietFailNext Context.background cmdSet
      (World.empty 0) rfl,
   (after_hooks_return_nil sampleHook).2.2.2 okPipelineNext Context.background sampleBatch
      (World.empty 0) rfl⟩

/-- C9: for every command and every context that holds nothing under the private
`startKey`, or holds a value there that is not a time, `AfterProcess` records no latency
observation at any label, still increments the single-command error counter at
(instance name, `cmd.Name()`), and only there, exactly when `cmd.Err()` is non-nil and
not `redis.Nil`, and returns nil: it is a total function and has no failing branch. -/
theorem AfterProcess_without_start (hook : Hook) (ctx : Context) (cmd : Cmder) (w : World)
    (h : ctx.Value Key.startKey = none ∨ ∃ s, ctx.Value Key.startKey = some (Value.other s)) :
    (hook.AfterProcess ctx cmd w).1 = none ∧
    (hook.AfterProcess ctx cmd w).2.metrics.singleCommands = w.metrics.singleCommands ∧
    ((hook.AfterProcess ctx cmd w).2.metrics.singleErrors (hook.options.InstanceName, cmd.Name) =
        w.metrics.singleErrors (hook.options.InstanceName, cmd.Name) + 1 ↔
      cmd.Err ≠ none ∧ cmd.Err ≠ some redisNil) ∧
    ((hook.AfterProcess ctx cmd w).2.metrics.singleErrors =
      if cmd.Err ≠ none ∧ cmd.Err ≠ some redisNil then
        w.metrics.singleErrors.Inc (hook.options.InstanceName, cmd.Name)
      else w.metrics.singleErrors) ∧
    (hook.AfterProcess ctx cmd w).2.metrics.pipelinedCommands = w.metrics.pipelinedCommands ∧
    (hook.AfterProcess ctx cmd w).2.metrics.pipelinedErrors = w.metrics.pipelinedErrors := by
  have ht : assertTime (ctx.Value Key.startKey) = none := by
    rcases h with h | ⟨s, h⟩ <;> rw [h] <;> rfl
  refine ⟨rfl, ?_, ?_, ?_, AfterProcess_pipelinedCommands hook ctx cmd w,
    AfterProcess_pipelinedErrors hook ctx cmd w⟩
  · rw [AfterProcess_singleCommands, ht]
  · rw [AfterProcess_singleErrors, ← isActualErr_iff]
    cases h : isActualErr cmd.Err <;> simp [CounterVec.Inc]
  · rw [AfterProcess_singleErrors]
    simp only [isActualErr_iff]

/-- Evaluation of C9 on a context whose `startKey` holds a value that is not a time:
`SET` with a refused connection leaves the histogram empty and counts one error. -/
theorem AfterProcess_without_start_witness :
    ((WithValue Context.background Key.startKey (Value.other "yesterday")).Value Key.startKey = none ∨
      ∃ s, (WithValue Context.background Key.startKey (Value.other "yesterday")).Value
        Key.startKey = some (Value.other s)) ∧
    (sampleHook.AfterProcess (WithValue Context.background Key.startKey (Value.other "yesterday"))
        { Name := "SET", Err := some connRefused } (World.empty 0)).2.metrics.singleCommands =
      (World.empty 0).metrics.singleCommands ∧
    (sampleHook.AfterProcess (WithValue Context.background Key.startKey (Value.other "yesterday"))
        { Name := "SET", Err := some connRefused } (World.empty 0)).2.metrics.singleErrors
        ("cache", "SET") = 0 + 1 :=
  ⟨Or.inr ⟨"yesterday", rfl⟩,
   (AfterProcess_without_start sampleHook
      (WithValue Context.background Key.startKey (Value.other "yesterday"))
      { Name := "SET", Err := some connRefused } (World.empty 0)
      (Or.inr ⟨"yesterday", rfl⟩)).2.1,
   (AfterProcess_without_start sampleHook
      (WithValue Context.background Key.startKey (Value.other "yesterday"))
      { Name := "SET", Err := some connRefused } (World.empty 0)
      (Or.inr ⟨"yesterday", rfl⟩)).2.2.1.2 (by simp [connRefused, redisNil])⟩

/-! ## Claims about `BeforeProcess` and `BeforeProcessPipeline` -/

/-- C10: for every caller context and command (or batch), `BeforeProcess` and
`BeforeProcessPipeline` return a nil error and a derived context in which the private
`startKey` maps to the clock reading taken by the call and every other key has exactly
the value it has in the caller's context; they leave the world, hence every metric
sink, as it was (the embedding hands the `Hook` over by value and gives none back, as
the source writes to none of its fields).  The timestamp lives only in the returned
context: of two calls on the same hook, also when the second is made from the context
the first returned, each context reads back the clock of its own call. -/
theorem before_hooks_frame (hook : Hook) (ctx : Context) (cmd : Cmder) (cmds : List Cmder)
    (w : World) :
    ((hook.BeforeProcess ctx cmd w).err = none ∧
      (hook.BeforeProcess ctx cmd w).ctx.Value Key.startKey = some (Value.time w.now) ∧
      (∀ k : Key, k ≠ Key.startKey →
        (hook.BeforeProcess ctx cmd w).ctx.Value k = ctx.Value k) ∧
      (hook.BeforeProcess ctx cmd w).world = w) ∧
    ((hook.BeforeProcessPipeline ctx cmds w).err = none ∧
      (hook.BeforeProcessPipeline ctx cmds w).ctx.Value Key.startKey = some (Value.time w.now) ∧
      (∀ k : Key, k ≠ Key.startKey →
        (hook.BeforeProcessPipeline ctx cmds w).ctx.Value k = ctx.Value k) ∧
      (hook.BeforeProcessPipeline ctx cmds w).world = w) ∧
    (∀ (ctx2 : Context) (cmd2 : Cmder) (w2 : World),
      assertTime ((hook.BeforeProcess ctx cmd w).ctx.Value Key.startKey) = some w.now ∧
      assertTime ((hook.BeforeProcess ctx2 cmd2 w2).ctx.Value Key.startKey) = some w2.now) ∧
    (∀ (cmd2 : Cmder) (w2 : World),
      assertTime ((hook.BeforeProcess (hook.BeforeProcess ctx cmd w).ctx cmd2 w2).ctx.Value
        Key.startKey) = some w2.now ∧
      assertTime ((hook.BeforeProcess ctx cmd w).ctx.Value Key.startKey) = some w.now) := by
  refine ⟨⟨rfl, value_WithValue_self _ _ _, ?_, rfl⟩, ⟨rfl, value_WithValue_self _ _ _, ?_, rfl⟩,
    ?_, ?_⟩
  · intro k hk
    exact value_WithValue_of_ne ctx Key.startKey k _ hk
  · intro k hk
    exact value_WithValue_of_ne ctx Key.startKey k _ hk
  · intro ctx2 cmd2 w2
    exact ⟨assertTime_BeforeProcess hook ctx cmd w, assertTime_BeforeProcess hook ctx2 cmd2 w2⟩
  · intro cmd2 w2
    exact ⟨assertTime_BeforeProcess hook _ cmd2 w2, assertTime_BeforeProcess hook ctx cmd w⟩

/-- Evaluation of C10 on a caller context that carries a value of its own under a
foreign key: that value is still there in the derived context. -/
theorem before_hooks_frame_witness :
    Key.foreign "trace" ≠ Key.startKey ∧
    (sampleHook.BeforeProcess (WithValue Context.background (Key.foreign "trace") (Value.other "42"))
        cmdGet (World.empty 5)).ctx.Value (Key.foreign "trace") =
      (WithValue Context.background (Key.foreign "trace") (Value.other "42")).Value
        (Key.foreign "trace") :=
  ⟨by simp,
   (before_hooks_frame sampleHook
      (WithValue Context.background (Key.foreign "trace") (Value.other "42")) cmdGet []
      (World.empty 5)).1.2.2.1 (Key.foreign "trace") (by simp)⟩

/-! ## Claims about the stage built by `ProcessHook` -/

/-- C3: for every caller context and command, if the next stage succeeds (returns nil
and leaves `cmd.Err()` nil), the stage returned by `ProcessHook(next)` returns nil and
adds exactly one observation to the single-command histogram, at label
(instance name, `cmd.Name()`) and at no other label; the value observed is the clock
after `next` minus the clock read by `BeforeProcess`.  It increments neither the
single-command error counter nor either pipelined counter.  The start timestamp written
by `BeforeProcess` is found in the context `AfterProcess` is given, so the observation
is never skipped. -/
theorem ProcessHook_success (hook : Hook) (next : ProcessHookFunc) (ctx : Context) (cmd : Cmder)
    (w : World)
    (hret : (next (hook.BeforeProcess ctx cmd w).ctx cmd w).err = none)
    (hcmd : (next (hook.BeforeProcess ctx cmd w).ctx cmd w).cmd.Err = none) :
    (hook.ProcessHook next ctx cmd w).err = none ∧
    (∀ l : Label,
      (hook.ProcessHook next ctx cmd w).world.metrics.singleCommands l =
        (next (hook.BeforeProcess ctx cmd w).ctx cmd w).world.metrics.singleCommands l ++
          if l = (hook.options.InstanceName,
              (next (hook.BeforeProcess ctx cmd w).ctx cmd w).cmd.Name) then
            [(next (hook.BeforeProcess ctx cmd w).ctx cmd w).world.now - w.now]
          else []) ∧
    (hook.ProcessHook next ctx cmd w).world.metrics.singleErrors =
      (next (hook.BeforeProcess ctx cmd w).ctx cmd w).world.metrics.singleErrors ∧
    (hook.ProcessHook next ctx cmd w).world.metrics.pipelinedCommands =
      (next (hook.BeforeProcess ctx cmd w).ctx cmd w).world.metrics.pipelinedCommands ∧
    (hook.ProcessHook next ctx cmd w).world.metrics.pipelinedErrors =
      (next (hook.BeforeProcess ctx cmd w).ctx cmd w).world.metrics.pipelinedErrors ∧
    assertTime ((hook.BeforeProcess ctx cmd w).ctx.Value Key.startKey) = some w.now := by
  have hs := ProcessHook_of_ok hook next ctx cmd w hret
  have ht := assertTime_BeforeProcess hook ctx cmd w
  simp only [BeforeProcess] at hcmd ht ⊢
  rw [hs]
  refine ⟨rfl, ?_, ?_, ?_, ?_, ht⟩
  · intro l
    simp only [AfterProcess_singleCommands, ht, HistogramVec.Observe]
    split <;> simp
  · simp only [AfterProcess_singleErrors, hcmd]
    rfl
  · simp only [AfterProcess_pipelinedCommands]
  · simp only [AfterProcess_pipelinedErrors]

/-- Evaluation of C3 on `GET` through a next stage that succeeds after seven
nanoseconds: one observation of 7 at `("cache", "GET")`. -/
theorem ProcessHook_success_witness :
    (okNext (sampleHook.BeforeProcess Context.background cmdGet (World.empty 100)).ctx cmdGet
      (World.empty 100)).err = none ∧
    (okNext (sampleHook.BeforeProcess Context.background cmdGet (World.empty 100)).ctx cmdGet
      (World.empty 100)).cmd.Err = none ∧
    (sampleHook.ProcessHook okNext Context.background cmdGet
      (World.empty 100)).world.metrics.singleCommands ("cache", "GET") =
      [] ++ if (("cache", "GET") : Label) = ("cache", "GET") then [(100 + 7 : Int) - 100] else [] :=
  ⟨rfl, rfl,
   (ProcessHook_success sampleHook okNext Context.background cmdGet (World.empty 100)
      rfl rfl).2.1 ("cache", "GET")⟩

/-- C1, as the code has it: for every next stage, context and command, if `next`
returns nil and the command's error once `next` has run is non-nil and is not
`redis.Nil`, then the stage returned by `ProcessHook(next)` increments the
single-command error counter at (instance name, `cmd.Name()`) exactly once, and at no
other label, and adds exactly one observation to the single-command histogram, at that
same label. -/
theorem ProcessHook_counts_error (hook : Hook) (next : ProcessHookFunc) (ctx : Context)
    (cmd : Cmder) (w : World)
    (hret : (next (hook.BeforeProcess ctx cmd w).ctx cmd w).err = none)
    (hnil : (next (hook.BeforeProcess ctx cmd w).ctx cmd w).cmd.Err ≠ none)
    (hsentinel : (next (hook.BeforeProcess ctx cmd w).ctx cmd w).cmd.Err ≠ some redisNil) :
    (hook.ProcessHook next ctx cmd w).err = none ∧
    (∀ l : Label,
      (hook.ProcessHook next ctx cmd w).world.metrics.singleErrors l =
        (next (hook.BeforeProcess ctx cmd w).ctx cmd w).world.metrics.singleErrors l +
          if l = (hook.options.InstanceName,
              (next (hook.BeforeProcess ctx cmd w).ctx cmd w).cmd.Name) then 1 else 0) ∧
    (∀ l : Label,
      (hook.ProcessHook next ctx cmd w).world.metrics.singleCommands l =
        (next (hook.BeforeProcess ctx cmd w).ctx cmd w).world.metrics.singleCommands l ++
          if l = (hook.options.InstanceName,
              (next (hook.BeforeProcess ctx cmd w).ctx cmd w).cmd.Name) then
            [(next (hook.BeforeProcess ctx cmd w).ctx cmd w).world.now - w.now]
          else []) := by
  have hs := ProcessHook_of_ok hook next ctx cmd w hret
  have ht := assertTime_BeforeProcess hook ctx cmd w
  have ha := (isActualErr_iff _).2 ⟨hnil, hsentinel⟩
  simp only [BeforeProcess] at ha ht ⊢
  rw [hs]
  refine ⟨rfl, ?_, ?_⟩
  · intro l
    simp only [AfterProcess_singleErrors, if_pos ha, CounterVec.Inc]
    split <;> simp
  · intro l
    simp only [AfterProcess_singleCommands, ht, HistogramVec.Observe]
    split <;> simp

/-- Evaluation of the amended C1 on `SET` through a next stage that records a refused
connection on the command and returns nil: one error counted at `("cache", "SET")`. -/
theorem ProcessHook_counts_error_witness :
    (quietFailNext (sampleHook.BeforeProcess Context.background cmdSet (World.empty 100)).ctx
      cmdSet (World.empty 100)).err = none ∧
    (sampleHook.ProcessHook quietFailNext Context.background cmdSet
      (World.empty 100)).world.metrics.singleErrors ("cache", "SET") =
      0 + if (("cache", "SET") : Label) = ("cache", "SET") then 1 else 0 :=
  ⟨rfl,
   (ProcessHook_counts_error sampleHook quietFailNext Context.background cmdSet (World.empty 100)
      rfl (by simp [quietFailNext]) (by simp [quietFailNext, connRefused, redisNil])).2.1
      ("cache", "SET")⟩

/-- C1 as stated fails: `SET` through a next stage that fails with a refused connection,
recording the error on the command and returning it.  Once `next` has run the command's
error is non-nil and not `redis.Nil`, yet the stage leaves the single-command error
counter at `("cache", "SET")` at 0 and the histogram there empty. -/
theorem ProcessHook_counts_error_counterexample :
    ((failNext (sampleHook.BeforeProcess Context.background cmdSet (World.empty 100)).ctx
        cmdSet (World.empty 100)).cmd.Err ≠ none ∧
      (failNext (sampleHook.BeforeProcess Context.background cmdSet (World.empty 100)).ctx
        cmdSet (World.empty 100)).cmd.Err ≠ some redisNil) ∧
    (failNext (sampleHook.BeforeProcess Context.background cmdSet (World.empty 100)).ctx
        cmdSet (World.empty 100)).cmd.Name = "SET" ∧
    (failNext (sampleHook.BeforeProcess Context.background cmdSet (World.empty 100)).ctx
        cmdSet (World.empty 100)).world.metrics.singleErrors ("cache", "SET") = 0 ∧
    (sampleHook.ProcessHook failNext Context.background cmdSet
        (World.empty 100)).world.metrics.singleErrors ("cache", "SET") = 0 ∧
    (sampleHook.ProcessHook failNext Context.background cmdSet
        (World.empty 100)).world.metrics.singleCommands ("cache", "SET") = [] ∧
    (sampleHook.ProcessHook failNext Context.background cmdSet
        (World.empty 100)).err = some connRefused := by
  refine ⟨⟨?_, ?_⟩, rfl, rfl, rfl, rfl, rfl⟩
  · simp [failNext]
  · simp [failNext, connRefused, redisNil]

/-! ## Claims about both stages -/

/-- C6: for every next stage, context and command (or batch), if `next` returns a
non-nil error `e`, the stage returned by `ProcessHook(next)` (respectively
`ProcessPipelineHook(next)`) returns that same `e` and hands back the command (batch)
and the world exactly as `next` left them: the hook has changed none of the four metric
sinks.  The after hook has not run: run on the state `next` left, it would have added an
observation to the histogram, at (instance name, `cmd.Name()`) (respectively
(instance name, `"pipeline"`)). -/
theorem stages_propagate_next_error (hook : Hook) :
    (∀ (next : ProcessHookFunc) (ctx : Context) (cmd : Cmder) (w : World) (e : GoError),
      (next (hook.BeforeProcess ctx cmd w).ctx cmd w).err = some e →
        (hook.ProcessHook next ctx cmd w).err = some e ∧
        (hook.ProcessHook next ctx cmd w).cmd =
          (next (hook.BeforeProcess ctx cmd w).ctx cmd w).cmd ∧
        (hook.ProcessHook next ctx cmd w).world =
          (next (hook.BeforeProcess ctx cmd w).ctx cmd w).world ∧
        (hook.AfterProcess (hook.BeforeProcess ctx cmd w).ctx
            (next (hook.BeforeProcess ctx cmd w).ctx cmd w).cmd
            (next (hook.BeforeProcess ctx cmd w).ctx cmd w).world).2.metrics.singleCommands
            (hook.options.InstanceName, (next (hook.BeforeProcess ctx cmd w).ctx cmd w).cmd.Name) ≠
          (hook.ProcessHook next ctx cmd w).world.metrics.singleCommands
            (hook.options.InstanceName,
              (next (hook.BeforeProcess ctx cmd w).ctx cmd w).cmd.Name)) ∧
    (∀ (next : ProcessPipelineHookFunc) (ctx : Context) (cmds : List Cmder) (w : World)
        (e : GoError),
      (next (hook.BeforeProcessPipeline ctx cmds w).ctx cmds w).err = some e →
        (hook.ProcessPipelineHook next ctx cmds w).err = some e ∧
        (hook.ProcessPipelineHook next ctx cmds w).cmd =
          (next (hook.BeforeProcessPipeline ctx cmds w).ctx cmds w).cmd ∧
        (hook.ProcessPipelineHook next ctx cmds w).world =
          (next (hook.BeforeProcessPipeline ctx cmds w).ctx cmds w).world ∧
        (hook.AfterProcessPipeline (hook.BeforeProcessPipeline ctx cmds w).ctx
            (next (hook.BeforeProcessPipeline ctx cmds w).ctx cmds w).cmd
            (next (hook.BeforeProcessPipeline ctx cmds w).ctx cmds w).world).2.metrics.singleCommands
            (hook.options.InstanceName, "pipeline") ≠
          (hook.ProcessPipelineHook next ctx cmds w).world.metrics.singleCommands
            (hook.options.InstanceName, "pipeline")) := by
  constructor
  · intro next ctx cmd w e h
    have hs := ProcessHook_of_err hook next ctx cmd w e h
    have ht := assertTime_BeforeProcess hook ctx cmd w
    simp only [BeforeProcess] at ht ⊢
    rw [hs]
    refine ⟨rfl, rfl, rfl, ?_⟩
    simp only [AfterProcess_singleCommands, ht, HistogramVec.Observe]
    simp
  · intro next ctx cmds w e h
    have hs := ProcessPipelineHook_of_err hook next ctx cmds w e h
    have ht := assertTime_BeforeProcessPipeline hook ctx cmds w
    simp only [BeforeProcessPipeline] at ht ⊢
    rw [hs]
    refine ⟨rfl, rfl, rfl, ?_⟩
    simp only [AfterProcessPipeline_eq, foldl_countPipelined_singleCommands,
      AfterProcess_singleCommands, ht, HistogramVec.Observe, NewCmd]
    simp

/-- Evaluation of C6 on `SET` and on the batch `[GET, SET, GET]` through next stages
that fail with a refused connection: the stages return that error and leave the world
as the next stage left it. -/
theorem stages_propagate_next_error_witness :
    (failNext (sampleHook.BeforeProcess Context.background cmdSet (World.empty 100)).ctx
      cmdSet (World.empty 100)).err = some connRefused ∧
    (sampleHook.ProcessHook failNext Context.background cmdSet (World.empty 100)).err =
      some connRefused ∧
    (failPipelineNext
      (sampleHook.BeforeProcessPipeline Context.background sampleBatch (World.empty 100)).ctx
      sampleBatch (World.empty 100)).err = some connRefused ∧
    (sampleHook.ProcessPipelineHook failPipelineNext Context.background sampleBatch
      (World.empty 100)).world =
      (failPipelineNext
        (sampleHook.BeforeProcessPipeline Context.background sampleBatch (World.empty 100)).ctx
        sampleBatch (World.empty 100)).world :=
  ⟨rfl,
   ((stages_propagate_next_error sampleHook).1 failNext Context.background cmdSet
      (World.empty 100) connRefused rfl).1,
   rfl,
   ((stages_propagate_next_error sampleHook).2 failPipelineNext Context.background sampleBatch
      (World.empty 100) connRefused rfl).2.2.1⟩

/-! ## Claims about `AfterProcessPipeline` -/

theorem countP_label_eq (inst n : String) (cmds : List Cmder) :
    cmds.countP (fun c => decide ((inst, c.Name) = ((inst, n) : Label))) =
      (cmds.map Cmder.Name).count n := by
  rw [List.count_eq_countP, List.countP_map]
  apply List.countP_congr
  intro c _
  simp

theorem countP_label_of_ne (inst : String) (l : Label) (p : Cmder → Bool) (cmds : List Cmder)
    (h : l.1 ≠ inst) :
    cmds.countP (fun c => decide ((inst, c.Name) = l) && p c) = 0 := by
  rw [List.countP_eq_zero]
  intro c _
  have : (inst, c.Name) ≠ l := fun hl => h (by rw [← hl])
  simp [this]

theorem AfterProcessPipeline_pipelinedCommands (hook : Hook) (ctx : Context)
    (cmds : List Cmder) (w : World) (n : String) :
    (hook.AfterProcessPipeline ctx cmds w).2.metrics.pipelinedCommands
        (hook.options.InstanceName, n) =
      w.metrics.pipelinedCommands (hook.options.InstanceName, n) +
        (cmds.map Cmder.Name).count n := by
  rw [AfterProcessPipeline_eq]
  simp only [foldl_countPipelined_pipelinedCommands, AfterProcess_pipelinedCommands,
    countP_label_eq]

/-- C4, as the code has it: for every batch `cmds` of N commands (N = 0 included),
`AfterProcessPipeline` applied to a context produced by `BeforeProcessPipeline` adds
exactly one observation to the single-command histogram, at label
(instance name, `"pipeline"`), and none at any other label: in particular none at the
label of any command of the batch whose name is not `"pipeline"`.  For every command
name `n` it increases the pipelined-command counter at (instance name, `n`) by exactly
the number of commands in `cmds` whose `Name()` is `n`, it changes that counter under no
other instance name, and the increases over the names occurring in the batch sum
to N. -/
theorem AfterProcessPipeline_counts_commands (hook : Hook) (ctx0 : Context)
    (cmds0 cmds : List Cmder) (w0 w : World) :
    (∀ l : Label,
      (hook.AfterProcessPipeline (hook.BeforeProcessPipeline ctx0 cmds0 w0).ctx cmds
          w).2.metrics.singleCommands l =
        w.metrics.singleCommands l ++
          if l = (hook.options.InstanceName, "pipeline") then [w.now - w0.now] else []) ∧
    (∀ c ∈ cmds, c.Name ≠ "pipeline" →
      (hook.AfterProcessPipeline (hook.BeforeProcessPipeline ctx0 cmds0 w0).ctx cmds
          w).2.metrics.singleCommands (hook.options.InstanceName, c.Name) =
        w.metrics.singleCommands (hook.options.InstanceName, c.Name)) ∧
    (∀ n : String,
      (hook.AfterProcessPipeline (hook.BeforeProcessPipeline ctx0 cmds0 w0).ctx cmds
          w).2.metrics.pipelinedCommands (hook.options.InstanceName, n) =
        w.metrics.pipelinedCommands (hook.options.InstanceName, n) +
          cmds.countP (fun c => decide (c.Name = n))) ∧
    (∀ l : Label, l.1 ≠ hook.options.InstanceName →
      (hook.AfterProcessPipeline (hook.BeforeProcessPipeline ctx0 cmds0 w0).ctx cmds
          w).2.metrics.pipelinedCommands l = w.metrics.pipelinedCommands l) ∧
    (((cmds.map Cmder.Name).dedup.map fun n =>
        (hook.AfterProcessPipeline (hook.BeforeProcessPipeline ctx0 cmds0 w0).ctx cmds
            w).2.metrics.pipelinedCommands (hook.options.InstanceName, n) -
          w.metrics.pipelinedCommands (hook.options.InstanceName, n)).sum = cmds.length) := by
  have ht := assertTime_BeforeProcessPipeline hook ctx0 cmds0 w0
  have hhist : ∀ l : Label,
      (hook.AfterProcessPipeline (hook.BeforeProcessPipeline ctx0 cmds0 w0).ctx cmds
          w).2.metrics.singleCommands l =
        w.metrics.singleCommands l ++
          if l = (hook.options.InstanceName, "pipeline") then [w.now - w0.now] else [] := by
    intro l
    rw [AfterProcessPipeline_eq]
    simp only [foldl_countPipelined_singleCommands, AfterProcess_singleCommands, ht,
      HistogramVec.Observe, NewCmd]
    split <;> simp
  refine ⟨hhist, ?_, ?_, ?_, ?_⟩
  · intro c _ hc
    rw [hhist]
    have : ((hook.options.InstanceName, c.Name) : Label) ≠
        (hook.options.InstanceName, "pipeline") := by
      intro h
      exact hc (Prod.mk.inj h).2
    simp [this]
  · intro n
    rw [AfterProcessPipeline_pipelinedCommands, List.count_eq_countP, List.countP_map]
    congr 1
  · intro l hl
    rw [AfterProcessPipeline_eq]
    simp only [foldl_countPipelined_pipelinedCommands, AfterProcess_pipelinedCommands]
    have h0 := countP_label_of_ne hook.options.InstanceName l (fun _ => true) cmds hl
    simp only [Bool.and_true] at h0
    rw [h0, Nat.add_zero]
  · simp only [AfterProcessPipeline_pipelinedCommands, Nat.add_sub_cancel_left]
    have h := List.sum_map_count_dedup_eq_length (cmds.map Cmder.Name)
    rw [List.length_map] at h
    exact h

/-- Evaluation of C4 on the batch `[GET, SET, GET]`: the label of `GET`, a command of
the batch whose name is not `"pipeline"`, gets no observation. -/
theorem AfterProcessPipeline_counts_commands_witness :
    cmdGet ∈ sampleBatch ∧ cmdGet.Name ≠ "pipeline" ∧
    (sampleHook.AfterProcessPipeline
        (sampleHook.BeforeProcessPipeline Context.background sampleBatch (World.empty 100)).ctx
        sampleBatch (World.empty 107)).2.metrics.singleCommands
        (sampleHook.options.InstanceName, cmdGet.Name) =
      (World.empty 107).metrics.singleCommands (sampleHook.options.InstanceName, cmdGet.Name) :=
  ⟨by simp [sampleBatch], by simp [cmdGet],
   (AfterProcessPipeline_counts_commands sampleHook Context.background sampleBatch sampleBatch
      (World.empty 100) (World.empty 107)).2.1 cmdGet (by simp [sampleBatch])
      (by simp [cmdGet])⟩

/-- C4 as stated fails: in the batch `[pipeline]`, whose one command is named
`"pipeline"`, the aggregate observation is made at `("cache", "pipeline")`, which is the
label of that command of the batch.  The histogram there is empty before the call and
holds one observation, of 7 nanoseconds, after it, so not every command of the batch
keeps its label free of observations. -/
theorem AfterProcessPipeline_counts_commands_counterexample :
    cmdPipeline ∈ [cmdPipeline] ∧
    (World.empty 107).metrics.singleCommands (sampleHook.options.InstanceName, cmdPipeline.Name) =
      [] ∧
    (sampleHook.AfterProcessPipeline
        (sampleHook.BeforeProcessPipeline Context.background [cmdPipeline] (World.empty 100)).ctx
        [cmdPipeline] (World.empty 107)).2.metrics.singleCommands
        (sampleHook.options.InstanceName, cmdPipeline.Name) = [7] ∧
    ¬ (∀ c ∈ [cmdPipeline],
      (sampleHook.AfterProcessPipeline
          (sampleHook.BeforeProcessPipeline Context.background [cmdPipeline]
            (World.empty 100)).ctx
          [cmdPipeline] (World.empty 107)).2.metrics.singleCommands
          (sampleHook.options.InstanceName, c.Name) =
        (World.empty 107).metrics.singleCommands (sampleHook.options.InstanceName, c.Name)) := by
  have hobs : (sampleHook.AfterProcessPipeline
      (sampleHook.BeforeProcessPipeline Context.background [cmdPipeline] (World.empty 100)).ctx
      [cmdPipeline] (World.empty 107)).2.metrics.singleCommands
      (sampleHook.options.InstanceName, cmdPipeline.Name) = [7] := by
    rw [AfterProcessPipeline_eq]
    simp only [foldl_countPipelined_singleCommands, AfterProcess_singleCommands,
      assertTime_BeforeProcessPipeline, HistogramVec.Observe, NewCmd]
    simp [sampleHook, cmdPipeline, World.empty]
  refine ⟨by simp, rfl, hobs, ?_⟩
  intro h
  have h2 := h cmdPipeline (by simp)
  rw [hobs] at h2
  exact absurd h2 (by simp [World.empty])

/-- C5: for every batch `cmds` and every command name `n`, `AfterProcessPipeline`
increases the pipelined-error counter at (instance name, `n`) by exactly the number of
commands in `cmds` whose `Name()` is `n` and whose `Err()` is non-nil and not
`redis.Nil`, changes that counter under no other instance name, and never changes the
single-command error counter at any label: the synthetic `"pipeline"` command carries no
error.  On `[GET, SET, GET]` where only `SET` has an actual error, starting from empty
vectors, the pipelined-command counts are `GET`: 2 and `SET`: 1, the pipelined-error
count of `SET` is 1 and that of every other label is 0. -/
theorem AfterProcessPipeline_counts_errors (hook : Hook) (ctx : Context) (cmds : List Cmder)
    (w : World) :
    (∀ n : String,
      (hook.AfterProcessPipeline ctx cmds w).2.metrics.pipelinedErrors
          (hook.options.InstanceName, n) =
        w.metrics.pipelinedErrors (hook.options.InstanceName, n) +
          cmds.countP (fun c =>
            decide (c.Name = n ∧ c.Err ≠ none ∧ c.Err ≠ some redisNil))) ∧
    (∀ l : Label, l.1 ≠ hook.options.InstanceName →
      (hook.AfterProcessPipeline ctx cmds w).2.metrics.pipelinedErrors l =
        w.metrics.pipelinedErrors l) ∧
    (hook.AfterProcessPipeline ctx cmds w).2.metrics.singleErrors = w.metrics.singleErrors ∧
    (NewCmd ctx "pipeline").Err = none ∧
    ((sampleHook.AfterProcessPipeline ctx sampleBatch (World.empty 0)).2.metrics.pipelinedCommands
        ("cache", "GET") = 2 ∧
      (sampleHook.AfterProcessPipeline ctx sampleBatch (World.empty 0)).2.metrics.pipelinedCommands
        ("cache", "SET") = 1 ∧
      (sampleHook.AfterProcessPipeline ctx sampleBatch (World.empty 0)).2.metrics.pipelinedErrors
        ("cache", "SET") = 1 ∧
      ∀ l : Label, l ≠ ("cache", "SET") →
        (sampleHook.AfterProcessPipeline ctx sampleBatch (World.empty 0)).2.metrics.pipelinedErrors
          l = 0) := by
  have herr : ∀ (h : Hook) (ws : World) (cs : List Cmder) (l : Label),
      (h.AfterProcessPipeline ctx cs ws).2.metrics.pipelinedErrors l =
        ws.metrics.pipelinedErrors l +
          cs.countP (fun c => decide ((h.options.InstanceName, c.Name) = l) &&
            isActualErr c.Err) := by
    intro h ws cs l
    rw [AfterProcessPipeline_eq]
    simp only [foldl_countPipelined_pipelinedErrors, AfterProcess_pipelinedErrors]
  refine ⟨?_, ?_, ?_, rfl, ?_, ?_, ?_, ?_⟩
  · intro n
    rw [herr]
    congr 1
    apply List.countP_congr
    intro c _
    simp [isActualErr_iff]
  · intro l hl
    rw [herr, countP_label_of_ne _ l _ cmds hl, Nat.add_zero]
  · rw [AfterProcessPipeline_eq, foldl_countPipelined_singleErrors, AfterProcess_singleErrors]
    rfl
  · exact (AfterProcessPipeline_pipelinedCommands sampleHook ctx sampleBatch (World.empty 0)
      "GET").trans (by simp [sampleBatch, cmdGet, World.empty])
  · exact (AfterProcessPipeline_pipelinedCommands sampleHook ctx sampleBatch (World.empty 0)
      "SET").trans (by simp [sampleBatch, cmdGet, World.empty])
  · rw [herr]
    simp [sampleBatch, cmdGet, World.empty, sampleHook, isActualErr, connRefused, redisNil]
  · intro l hl
    rw [herr]
    have hl2 : (("cache", "SET") : Label) ≠ l := fun h => hl h.symm
    simp [sampleBatch, cmdGet, World.empty, sampleHook, isActualErr, hl2]

end Hook

/-! ## Registration: facts about `register`, the registry and `NewHook` -/

theorem except_bind_ok {ε α β : Type} (x : Except ε α) (f : α → Except ε β) (y : β)
    (h : x >>= f = Except.ok y) : ∃ a, x = Except.ok a ∧ f a = Except.ok y := by
  cases x with
  | error e => cases h
  | ok a => exact ⟨a, rfl, h⟩

theorem string_append_left_cancel (s a b : String) (h : s ++ a = s ++ b) : a = b := by
  have h2 := congrArg String.data h
  simp only [String.data_append] at h2
  exact String.ext (List.append_cancel_left h2)

theorem BuildFQName_injective (ns a b : String) (ha : a ≠ "") (hb : b ≠ "")
    (h : BuildFQName ns a = BuildFQName ns b) : a = b := by
  unfold BuildFQName at h
  rw [if_neg ha, if_neg hb] at h
  by_cases hns : ns = ""
  · rw [if_pos hns, if_pos hns] at h
    exact h
  · rw [if_neg hns, if_neg hns] at h
    rw [String.append_assoc, String.append_assoc] at h
    exact string_append_left_cancel "_" a b (string_append_left_cancel ns _ _ h)

theorem assertKind_ok (k : CollectorKind) (c x : Collector)
    (h : assertKind k c = Except.ok x) : x = c ∧ c.kind = k := by
  unfold assertKind at h
  by_cases hk : c.kind = k
  · rw [if_pos hk] at h
    cases h
    exact ⟨rfl, hk⟩
  · rw [if_neg hk] at h
    cases h

theorem register_default_ok (c x : Collector) (reg reg1 : List Collector)
    (h : register DefaultRegisterer c reg = Except.ok (x, reg1)) :
    reg1.find? (fun e => e.fqName == c.fqName) = some x ∧ x.help = c.help ∧
      x.labelNames = c.labelNames ∧
      ∀ m : String, m ≠ c.fqName →
        reg1.find? (fun e => e.fqName == m) = reg.find? (fun e => e.fqName == m) := by
  unfold register DefaultRegisterer at h
  cases hf : reg.find? (fun e => e.fqName == c.fqName) with
  | none =>
    simp only [hf] at h
    cases h
    refine ⟨?_, rfl, rfl, ?_⟩
    · simp [List.find?_append, hf]
    · intro m hm
      have : (c.fqName == m) = false := by simpa using fun h => hm h.symm
      simp [List.find?_append, List.find?_cons, this]
  | some existing =>
    simp only [hf] at h
    by_cases hc : existing.help = c.help ∧ existing.labelNames = c.labelNames
    · rw [if_pos hc] at h
      cases h
      exact ⟨hf, hc.1, hc.2, fun _ _ => rfl⟩
    · rw [if_neg hc] at h
      cases h

theorem register_default_again (c x : Collector) (reg : List Collector)
    (hf : reg.find? (fun e => e.fqName == c.fqName) = some x) (hh : x.help = c.help)
    (hl : x.labelNames = c.labelNames) :
    register DefaultRegisterer c reg = Except.ok (x, reg) := by
  unfold register DefaultRegisterer
  simp only [hf]
  rw [if_pos ⟨hh, hl⟩]

theorem find?_append_of_some (p : Collector → Bool) (reg extra : List Collector) (x : Collector)
    (h : reg.find? p = some x) : (reg ++ extra).find? p = some x := by
  simp [List.find?_append, h]

theorem NewHook_again (o1 o2 : Options) (p0 p1 : Process (List Collector)) (h1 : Hook)
    (hns : o1.Namespace = o2.Namespace)
    (hfirst : NewHook DefaultRegisterer o1 p0 = Except.ok (h1, p1))
    (extra : List Collector) (a : Nat) :
    NewHook DefaultRegisterer o2 { nextAddr := a, registry := p1.registry ++ extra } =
      Except.ok
        ({ options := o2
           singleCommands := h1.singleCommands
           pipelinedCommands := h1.pipelinedCommands
           singleErrors := h1.singleErrors
           pipelinedErrors := h1.pipelinedErrors },
         { nextAddr := a + 4, registry := p1.registry ++ extra }) := by
  have n12 : BuildFQName o1.Namespace "redis_pipelined_commands" ≠
      BuildFQName o1.Namespace "redis_single_commands" :=
    fun h => absurd (BuildFQName_injective _ _ _ (by decide) (by decide) h) (by decide)
  have n13 : BuildFQName o1.Namespace "redis_single_errors" ≠
      BuildFQName o1.Namespace "redis_single_commands" :=
    fun h => absurd (BuildFQName_injective _ _ _ (by decide) (by decide) h) (by decide)
  have n14 : BuildFQName o1.Namespace "redis_pipelined_errors" ≠
      BuildFQName o1.Namespace "redis_single_commands" :=
    fun h => absurd (BuildFQName_injective _ _ _ (by decide) (by decide) h) (by decide)
  have n23 : BuildFQName o1.Namespace "redis_single_errors" ≠
      BuildFQName o1.Namespace "redis_pipelined_commands" :=
    fun h => absurd (BuildFQName_injective _ _ _ (by decide) (by decide) h) (by decide)
  have n24 : BuildFQName o1.Namespace "redis_pipelined_errors" ≠
      BuildFQName o1.Namespace "redis_pipelined_commands" :=
    fun h => absurd (BuildFQName_injective _ _ _ (by decide) (by decide) h) (by decide)
  have n34 : BuildFQName o1.Namespace "redis_pipelined_errors" ≠
      BuildFQName o1.Namespace "redis_single_errors" :=
    fun h => absurd (BuildFQName_injective _ _ _ (by decide) (by decide) h) (by decide)
  unfold NewHook at hfirst
  simp only [NewHistogramVec, NewCounterVec] at hfirst
  obtain ⟨⟨r1, reg1⟩, ha1, hb1⟩ := except_bind_ok _ _ _ hfirst
  clear hfirst
  simp only at hb1
  obtain ⟨s1, hk1, hc1⟩ := except_bind_ok _ _ _ hb1
  clear hb1
  obtain ⟨⟨r2, reg2⟩, ha2, hb2⟩ := except_bind_ok _ _ _ hc1
  clear hc1
  simp only at hb2
  obtain ⟨s2, hk2, hc2⟩ := except_bind_ok _ _ _ hb2
  clear hb2
  obtain ⟨⟨r3, reg3⟩, ha3, hb3⟩ := except_bind_ok _ _ _ hc2
  clear hc2
  simp only at hb3
  obtain ⟨s3, hk3, hc3⟩ := except_bind_ok _ _ _ hb3
  clear hb3
  obtain ⟨⟨r4, reg4⟩, ha4, hb4⟩ := except_bind_ok _ _ _ hc3
  clear hc3
  simp only at hb4
  obtain ⟨s4, hk4, hc4⟩ := except_bind_ok _ _ _ hb4
  clear hb4
  simp only [pure, Except.pure, Except.ok.injEq, Prod.mk.injEq] at hc4
  obtain ⟨rfl, rfl⟩ := hc4
  obtain ⟨rfl, hkind1⟩ := assertKind_ok _ _ _ hk1
  obtain ⟨rfl, hkind2⟩ := assertKind_ok _ _ _ hk2
  obtain ⟨rfl, hkind3⟩ := assertKind_ok _ _ _ hk3
  obtain ⟨rfl, hkind4⟩ := assertKind_ok _ _ _ hk4
  obtain ⟨f1, hh1, hl1, -⟩ := register_default_ok _ _ _ _ ha1
  obtain ⟨f2, hh2, hl2, g2⟩ := register_default_ok _ _ _ _ ha2
  obtain ⟨f3, hh3, hl3, g3⟩ := register_default_ok _ _ _ _ ha3
  obtain ⟨f4, hh4, hl4, g4⟩ := register_default_ok _ _ _ _ ha4
  simp only at f1 hh1 hl1 f2 hh2 hl2 g2 f3 hh3 hl3 g3 f4 hh4 hl4 g4
  have e1 : reg4.find? (fun e => e.fqName == BuildFQName o1.Namespace "redis_single_commands") =
      some s1 := by
    rw [g4 _ n14.symm, g3 _ n13.symm, g2 _ n12.symm, f1]
  have e2 : reg4.find?
      (fun e => e.fqName == BuildFQName o1.Namespace "redis_pipelined_commands") = some s2 := by
    rw [g4 _ n24.symm, g3 _ n23.symm, f2]
  have e3 : reg4.find? (fun e => e.fqName == BuildFQName o1.Namespace "redis_single_errors") =
      some s3 := by
    rw [g4 _ n34.symm, f3]
  unfold NewHook
  simp only [NewHistogramVec, NewCounterVec, ← hns]
  rw [register_default_again _ s1 (reg4 ++ extra) (find?_append_of_some _ _ _ _ e1) hh1 hl1]
  simp only [bind, Except.bind, assertKind, hkind1, if_true]
  rw [register_default_again _ s2 (reg4 ++ extra) (find?_append_of_some _ _ _ _ e2) hh2 hl2]
  simp only [hkind2, if_true]
  rw [register_default_again _ s3 (reg4 ++ extra) (find?_append_of_some _ _ _ _ e3) hh3 hl3]
  simp only [hkind3, if_true]
  rw [register_default_again _ s4 (reg4 ++ extra) (find?_append_of_some _ _ _ _ f4) hh4 hl4]
  simp only [hkind4, if_true]
  rfl

theorem NewHook_twice (o1 o2 : Options) (p0 p1 : Process (List Collector)) (h1 : Hook)
    (hns : o1.Namespace = o2.Namespace)
    (hfirst : NewHook DefaultRegisterer o1 p0 = Except.ok (h1, p1)) :
    NewHook DefaultRegisterer o2 p1 =
      Except.ok
        ({ options := o2
           singleCommands := h1.singleCommands
           pipelinedCommands := h1.pipelinedCommands
           singleErrors := h1.singleErrors
           pipelinedErrors := h1.pipelinedErrors },
         { nextAddr := p1.nextAddr + 4, registry := p1.registry }) := by
  have h := NewHook_again o1 o2 p0 p1 h1 hns hfirst [] p1.nextAddr
  simp only [List.append_nil] at h
  exact h

/-- C8: `register(c)` returns `c` itself when the registry accepts `c`, returns the
previously registered collector that the registry's `AlreadyRegisteredError` carries
(and not `c`) when the registry answers with that error, and panics with the registry's
error on any other failure.  Hence, after a `NewHook` call that has returned, a second
`NewHook` call with the same namespace does not panic and yields a hook whose four
sinks are the very same collectors as the first hook's, whatever its instance name and
buckets; it registers nothing new.  The same holds for a second call made later, after
further allocations and after other collectors have been registered. -/
theorem register_idempotent {ρ : Type} (Register : Registerer ρ) (c : Collector) (reg : ρ)
    (o1 o2 : Options) (p0 p1 : Process (List Collector)) (h1 : Hook)
    (hns : o1.Namespace = o2.Namespace)
    (hfirst : NewHook DefaultRegisterer o1 p0 = Except.ok (h1, p1)) :
    (∀ reg1 : ρ, Register c reg = (none, reg1) →
      register Register c reg = Except.ok (c, reg1)) ∧
    (∀ (existing new : Collector) (reg1 : ρ),
      Register c reg = (some (RegisterError.alreadyRegistered existing new), reg1) →
        register Register c reg = Except.ok (existing, reg1)) ∧
    (∀ (msg : String) (reg1 : ρ), Register c reg = (some (RegisterError.other msg), reg1) →
      register Register c reg = Except.error (Panic.registerError (RegisterError.other msg))) ∧
    NewHook DefaultRegisterer o2 p1 =
      Except.ok
        ({ options := o2
           singleCommands := h1.singleCommands
           pipelinedCommands := h1.pipelinedCommands
           singleErrors := h1.singleErrors
           pipelinedErrors := h1.pipelinedErrors },
         { nextAddr := p1.nextAddr + 4, registry := p1.registry }) ∧
    (∀ (extra : List Collector) (a : Nat),
      NewHook DefaultRegisterer o2 { nextAddr := a, registry := p1.registry ++ extra } =
        Except.ok
          ({ options := o2
             singleCommands := h1.singleCommands
             pipelinedCommands := h1.pipelinedCommands
             singleErrors := h1.singleErrors
             pipelinedErrors := h1.pipelinedErrors },
           { nextAddr := a + 4, registry := p1.registry ++ extra })) := by
  refine ⟨?_, ?_, ?_, NewHook_twice o1 o2 p0 p1 h1 hns hfirst,
    NewHook_again o1 o2 p0 p1 h1 hns hfirst⟩
  · intro reg1 h
    simp only [register, h]
  · intro existing new reg1 h
    simp only [register, h]
  · intro msg reg1 h
    simp only [register, h]

/-- Evaluation of C8: the first `NewHook` with namespace `"app"` registers four new
collectors; registering a new histogram of the same name then returns the first hook's
histogram (address 0), not the new one (address 4); a second `NewHook` with the same
namespace returns the first hook's four collectors; and on a registry that refuses
every collector `register` panics with the registry's error. -/
theorem register_idempotent_witness :
    firstOptions.Namespace = secondOptions.Namespace ∧
    NewHook DefaultRegisterer firstOptions { nextAddr := 0, registry := [] } =
      Except.ok (firstHook, firstProcess) ∧
    DefaultRegisterer secondHistogram firstProcess.registry =
      (some (RegisterError.alreadyRegistered firstHook.singleCommands secondHistogram),
        firstProcess.registry) ∧
    register DefaultRegisterer secondHistogram firstProcess.registry =
      Except.ok (firstHook.singleCommands, firstProcess.registry) ∧
    firstHook.singleCommands ≠ secondHistogram ∧
    NewHook DefaultRegisterer secondOptions firstProcess =
      Except.ok
        ({ options := secondOptions
           singleCommands := firstHook.singleCommands
           pipelinedCommands := firstHook.pipelinedCommands
           singleErrors := firstHook.singleErrors
           pipelinedErrors := firstHook.pipelinedErrors },
         { nextAddr := firstProcess.nextAddr + 4, registry := firstProcess.registry }) ∧
    register refusingRegisterer secondHistogram () =
      Except.error (Panic.registerError (RegisterError.other "registry closed")) :=
  ⟨rfl, rfl, rfl,
   (register_idempotent DefaultRegisterer secondHistogram firstProcess.registry firstOptions
      secondOptions { nextAddr := 0, registry := [] } firstProcess firstHook rfl rfl).2.1
      firstHook.singleCommands secondHistogram firstProcess.registry rfl,
   by simp [firstHook, secondHistogram],
   (register_idempotent DefaultRegisterer secondHistogram firstProcess.registry firstOptions
      secondOptions { nextAddr := 0, registry := [] } firstProcess firstHook rfl rfl).2.2.2.1,
   (register_idempotent refusingRegisterer secondHistogram () firstOptions
      secondOptions { nextAddr := 0, registry := [] } firstProcess firstHook rfl rfl).2.2.1
      "registry closed" () rfl⟩

end Redisprom
